import Mathlib

/-!
Verification of the natural-language specification of the
`codecrafters-http-server-rust` repository against its source
(`src/http.rs`, `src/main.rs`).

The wire is modelled as a list of characters, one `Char` per byte (all
wire content relevant to the claims is ASCII).  Rust `String`s are
modelled as the same type.  Fallible Rust code is embedded with
`Except`/`Option`; Rust panics (out-of-range indexing, out-of-range
slicing, `todo` macros) are modelled as distinguished error outcomes so
that "crashes" and "deliberate error results" stay separate.  The gzip
compressor (crate `flate2`, external to the repository) is passed to the
serializer as a function parameter.  Bounded recursion uses explicit
fuel so that every definition evaluates by kernel reduction.
-/

/-- Byte/character strings: one `Char` per byte. -/
abbrev Str := List Char

/-- `RequestMethod` (src/http.rs lines 7-14). -/
inductive RequestMethod
  | GET
  | POST
  | PUT
  | PATCH
  | DELETE
deriving DecidableEq

/-- Error outcomes of the embedded request path.  Constructors prefixed
`panic` model Rust panics (crashes), `hang` models the infinite loop of
`get_headers` on premature EOF; the others model `anyhow` error returns. -/
inductive HttpErr
  | unknownMethod
  | malformedVersion
  | malformedContentLength
  | bodyEof
  | panicIndexOutOfRange
  | panicSliceOutOfRange
  | panicTodo
  | hang
deriving DecidableEq

/-- `HttpRequest` (src/http.rs lines 16-23).  The `f32` protocol version is
kept as its accepted literal (digit string) since no code reads its value. -/
structure HttpRequest where
  method : RequestMethod
  path : Str
  version : Str
  headers : List (Str × Str)
  body : Option Str
deriving DecidableEq

/-- tokio `read_line`: consume up to and including the first newline;
at end of input, return what is left (possibly empty) without error. -/
def readLine : Str → Str × Str
  | [] => ([], [])
  | c :: cs =>
    if c = '\n' then ([c], cs)
    else
      let lr := readLine cs
      (c :: lr.1, lr.2)

/-- Fuelled worker for `words`. -/
def wordsAux : Nat → Str → List Str
  | 0, _ => []
  | fuel + 1, s =>
    match s with
    | [] => []
    | c :: cs =>
      if c.isWhitespace then wordsAux fuel cs
      else (c :: cs.takeWhile (fun x => !x.isWhitespace)) ::
        wordsAux fuel (cs.dropWhile (fun x => !x.isWhitespace))

/-- Rust `str::split_whitespace` (src/http.rs line 33): maximal
whitespace-free tokens, empties skipped. -/
def words (s : Str) : List Str := wordsAux (s.length + 1) s

/-- Rust `str::trim`. -/
def trim (s : Str) : Str :=
  ((s.dropWhile Char.isWhitespace).reverse.dropWhile Char.isWhitespace).reverse

/-- Rust `str::split_once`: split at the first occurrence of `pat`. -/
def splitOnce (pat : Str) : Str → Option (Str × Str)
  | [] => none
  | c :: cs =>
    if pat.isPrefixOf (c :: cs) then some ([], (c :: cs).drop pat.length)
    else (splitOnce pat cs).map fun ab => (c :: ab.1, ab.2)

/-- `HashMap::insert`: last write wins, at most one entry per key. -/
def insertH (k v : Str) (hs : List (Str × Str)) : List (Str × Str) :=
  hs.filter (fun kv => kv.1 != k) ++ [(k, v)]

/-- `parse_request_method` (src/http.rs lines 104-113). -/
def parseMethod (m : Str) : Except HttpErr RequestMethod :=
  if m = ("GET".data) then .ok .GET
  else if m = ("POST".data) then .ok .POST
  else if m = ("PUT".data) then .ok .PUT
  else if m = ("PATCH".data) then .ok .PATCH
  else if m = ("DELETE".data) then .ok .DELETE
  else .error .unknownMethod

/-- Fuelled worker for `getHeaders` (src/http.rs lines 81-102).  The Rust
loop `read_line`s until a bare CRLF; header lines are trimmed and split at
the first `": "`, lines without the separator are silently skipped.  On
end of input before the blank line the Rust loop never terminates; that
divergence is modelled as the `hang` outcome. -/
def getHeadersAux : Nat → List (Str × Str) → Str → Except HttpErr (List (Str × Str) × Str)
  | 0, _, _ => .error .hang
  | fuel + 1, acc, input =>
    match input with
    | [] => .error .hang
    | c :: cs =>
      let lr := readLine (c :: cs)
      if lr.1 = ("\r\n".data) then .ok (acc, lr.2)
      else
        match splitOnce (": ".data) (trim lr.1) with
        | some kv => getHeadersAux fuel (insertH kv.1 kv.2 acc) lr.2
        | none => getHeadersAux fuel acc lr.2

/-- `get_headers` (src/http.rs lines 81-102). -/
def getHeaders (input : Str) : Except HttpErr (List (Str × Str) × Str) :=
  getHeadersAux (input.length + 1) [] input

/-- Numeric value of an ASCII digit character. -/
def digitVal (c : Char) : Nat := c.toNat - 48

/-- Little-endian digit-list value (base 10). -/
def ofDigitsLE : List Nat → Nat
  | [] => 0
  | d :: ds => d + 10 * ofDigitsLE ds

/-- Rust `usize::from_str` on a decimal string (sign handling omitted:
no claim depends on it): all characters must be digits, empty fails. -/
def parseNatChars (cs : Str) : Option Nat :=
  if cs ≠ [] ∧ cs.all Char.isDigit = true then
    some (ofDigitsLE ((cs.map digitVal).reverse))
  else none

/-- Rust `f32::from_str` abstracted to its common decimal literals
(digits with at most dots, at least one digit); the value is kept as the
accepted literal since nothing in the repository reads it. -/
def parseVersion (cs : Str) : Option Str :=
  if cs ≠ [] ∧ cs.all (fun c => c.isDigit || c == '.') = true ∧ cs.any Char.isDigit = true then
    some cs
  else none

/-- Body determination of `HttpRequest::from_reader` (src/http.rs lines
47-67): POST reads `Content-Length` bytes when the header is present and
otherwise yields the untouched empty buffer `Some []`; GET yields no
body; PUT/PATCH/DELETE hit `todo` and panic. -/
def computeBody (method : RequestMethod) (headers : List (Str × Str)) (rest : Str) :
    Except HttpErr (Option Str) :=
  match method with
  | .POST =>
    match List.lookup ("Content-Length".data) headers with
    | some cl =>
      match parseNatChars cl with
      | none => .error .malformedContentLength
      | some n => if n ≤ rest.length then .ok (some (rest.take n)) else .error .bodyEof
    | none => .ok (some [])
  | .GET => .ok none
  | .PUT => .error .panicTodo
  | .PATCH => .error .panicTodo
  | .DELETE => .error .panicTodo

/-- `HttpRequest::from_reader` (src/http.rs lines 27-78).  The start line
is split on whitespace and indexed at 0, 1, 2 without a length check;
the missing-token panics are modelled as `panicIndexOutOfRange`, and the
byte-slice `req_parts[2][5..]` on a token shorter than 5 bytes as
`panicSliceOutOfRange`.  Method resolution happens before the second
index is read, matching the evaluation order of the Rust code. -/
def fromReader (input : Str) : Except HttpErr HttpRequest :=
  let sl := readLine input
  match words sl.1 with
  | [] => .error .panicIndexOutOfRange
  | m :: rest0 =>
    match parseMethod m with
    | .error e => .error e
    | .ok method =>
      match rest0 with
      | [] => .error .panicIndexOutOfRange
      | p :: rest1 =>
        match rest1 with
        | [] => .error .panicIndexOutOfRange
        | v :: _ =>
          if v.length < 5 then .error .panicSliceOutOfRange
          else
            match parseVersion (v.drop 5) with
            | none => .error .malformedVersion
            | some ver =>
              match getHeaders sl.2 with
              | .error e => .error e
              | .ok hr =>
                match computeBody method hr.1 hr.2 with
                | .error e => .error e
                | .ok body => .ok ⟨method, p, ver, hr.1, body⟩

/-- `ContentType` (src/http.rs lines 247-251). -/
inductive ContentType
  | TextPlain
  | OctetStream

/-- `ToString for ContentType` (src/http.rs lines 253-260). -/
def ContentType.toStr : ContentType → Str
  | .TextPlain => "text/plain".data
  | .OctetStream => "application/octet-stream".data

/-- `HttpResponse` (src/http.rs lines 115-121). -/
structure HttpResponse where
  status_code : Nat
  status_text : Str
  headers : List (Str × Str)
  body : Option Str
deriving DecidableEq

/-- `HttpResponse::new` (src/http.rs lines 124-131). -/
def HttpResponse.new : HttpResponse :=
  ⟨200, "OK".data, [], none⟩

/-- Status-text table of `set_status_code` (src/http.rs lines 133-143). -/
def statusTextOf (code : Nat) : Str :=
  match code with
  | 200 => "OK".data
  | 201 => "Created".data
  | 404 => "Not Found".data
  | 400 => "Bad Request".data
  | 401 => "Unauthorized".data
  | _ => "UNKNOWN STATUS".data

/-- `HttpResponse::set_status_code` (src/http.rs lines 133-143). -/
def HttpResponse.set_status_code (r : HttpResponse) (code : Nat) : HttpResponse :=
  { r with status_code := code, status_text := statusTextOf code }

/-- `HttpResponse::set_header` (src/http.rs lines 145-147). -/
def HttpResponse.set_header (r : HttpResponse) (k v : Str) : HttpResponse :=
  { r with headers := insertH k v r.headers }

/-- `HttpResponse::set_content_type` (src/http.rs lines 149-152). -/
def HttpResponse.set_content_type (r : HttpResponse) (ct : ContentType) : HttpResponse :=
  r.set_header ("Content-Type".data) ct.toStr

/-- `HttpResponse::set_body` (src/http.rs lines 154-156). -/
def HttpResponse.set_body (r : HttpResponse) (b : Str) : HttpResponse :=
  { r with body := some b }

/-- Fuelled worker for decimal rendering. -/
def toDecimalAux : Nat → Nat → Str → Str
  | 0, _, acc => acc
  | fuel + 1, n, acc =>
    if n < 10 then Char.ofNat (48 + n) :: acc
    else toDecimalAux fuel (n / 10) (Char.ofNat (48 + n % 10) :: acc)

/-- Decimal rendering as produced by Rust `format` of an unsigned integer. -/
def natToChars (n : Nat) : Str := toDecimalAux (n + 1) n []

/-- Status line of `write_to_buffer` (src/http.rs lines 188-190). -/
def statusLine (r : HttpResponse) : Str :=
  "HTTP/1.1 ".data ++ natToChars r.status_code ++ " ".data ++ r.status_text ++ "\r\n".data

/-- Header section of `write_to_buffer` (src/http.rs lines 193-199): every
stored header is emitted except any literally named "Content-Length". -/
def renderHeaderSec (hs : List (Str × Str)) : Str :=
  (hs.map fun kv =>
    if kv.1 = ("Content-Length".data) then []
    else kv.1 ++ ": ".data ++ kv.2 ++ "\r\n".data).flatten

/-- `HttpResponse::write_to_buffer` (src/http.rs lines 184-237).  The gzip
compressor of crate `flate2` is external to the repository and is passed
in as `gzip`; the Rust encoder into a `Vec` sink cannot fail, so the
function is total. -/
def HttpResponse.write_to_buffer (r : HttpResponse) (gzip : Str → Str) : Str :=
  statusLine r ++ renderHeaderSec r.headers ++
    match r.body with
    | some b =>
      (if List.lookup ("Content-Type".data) r.headers = none
        then "Content-Type: text/plain\r\n".data else []) ++
      (match List.lookup ("Content-Encoding".data) r.headers with
        | some _ =>
          let enc := gzip b
          "Content-Length: ".data ++ natToChars enc.length ++ "\r\n\r\n".data ++ enc
        | none =>
          "Content-Length: ".data ++ natToChars b.length ++ "\r\n\r\n".data ++ b)
    | none => "Content-Length: 0\r\n\r\n".data

/-- Fuelled worker for Rust `str::replace`: non-overlapping matches
replaced left to right. -/
def replaceFuel (pat rep : Str) : Nat → Str → Str
  | 0, s => s
  | _ + 1, [] => []
  | fuel + 1, c :: cs =>
    if pat.isPrefixOf (c :: cs) then rep ++ replaceFuel pat rep fuel ((c :: cs).drop pat.length)
    else c :: replaceFuel pat rep fuel cs

/-- Rust `str::replace` (used at src/main.rs line 126). -/
def rustReplace (pat rep s : Str) : Str := replaceFuel pat rep s.length s

/-- `echo_route` (src/main.rs lines 124-130): the body is the path with
`str::replace` applied to the pattern "/echo/" and an empty replacement. -/
def echo_route (path : Str) : HttpResponse :=
  HttpResponse.new.set_body (rustReplace ("/echo/".data) [] path)

/-- `user_agent_route` (src/main.rs lines 132-137). -/
def user_agent_route (ua : Str) : HttpResponse :=
  HttpResponse.new.set_body ua

/-- `PathBuf::join` (src/http.rs line 167, src/main.rs line 69): per
`PathBuf::push`, joining an absolute path (leading '/') replaces the
base entirely; otherwise the name is appended, inserting a separator
unless the base is empty or already ends in one. -/
def pathJoin (dir name : Str) : Str :=
  if name.head? = some '/' then name
  else if dir = [] then name
  else if dir.getLast? = some '/' then dir ++ name
  else dir ++ '/' :: name

/-- `HttpResponse::set_file_content` (src/http.rs lines 162-181).  The
filesystem read `tokio::fs::read` is abstracted as `fs` (`none` is any
read failure).  On failure only the status is set to 404; on success the
data becomes the body and the content type is set to octet-stream.  The
Rust function returns `Ok` in both cases. -/
def HttpResponse.set_file_content (r : HttpResponse) (fs : Str → Option Str)
    (dir name : Str) : HttpResponse :=
  match fs (pathJoin dir name) with
  | none => r.set_status_code 404
  | some data => (r.set_body data).set_content_type .OctetStream

/-- `file_route` (src/main.rs lines 139-146), the GET `/files/` branch of
`handler` (src/main.rs lines 53-65). -/
def file_route (fs : Str → Option Str) (dir name : Str) : HttpResponse :=
  HttpResponse.new.set_file_content fs dir name

/-- POST `/files/` branch of `handler` (src/main.rs lines 67-82): the file
write is represented as an action `some (path, contents)` — performed iff
the parsed request carried a body, with `File::create` truncating so that
the final file contents equal the written bytes — alongside the 201
response. -/
def handleFilesPost (dir name : Str) (body : Option Str) :
    HttpResponse × Option (Str × Str) :=
  (HttpResponse.new.set_status_code 201, body.map fun b => (pathJoin dir name, b))

/-- Split at the first CRLF, excluding it (helper of the re-parser). -/
def splitCRLF : Str → Option (Str × Str)
  | [] => none
  | c :: cs =>
    if c = '\r' ∧ cs.head? = some '\n' then some ([], cs.tail)
    else (splitCRLF cs).map fun lr => (c :: lr.1, lr.2)

/-- Fuelled worker for the framing re-parser: read CRLF-terminated lines
until a blank line, splitting each at the first `": "` (separator-free
lines are skipped, per the spec's leniency). -/
def parseHeaderLinesAux : Nat → Str → Option (List (Str × Str) × Str)
  | 0, _ => none
  | fuel + 1, s =>
    match splitCRLF s with
    | none => none
    | some lr =>
      if lr.1 = [] then some ([], lr.2)
      else
        match splitOnce (": ".data) lr.1 with
        | some kv => (parseHeaderLinesAux fuel lr.2).map fun hr => (kv :: hr.1, hr.2)
        | none => parseHeaderLinesAux fuel lr.2

/-- Modelled from the spec: the repository has no response parser, so
re-parsing the serialized framing (spec section 8, round-trip property;
framing per sections 4.2-4.3) is modelled from the spec's words: skip the
status line, read headers until the blank line, read the `Content-Length`
value as a decimal, then take exactly that many body bytes.  Returns the
declared length and the body bytes. -/
def parseFraming (s : Str) : Option (Nat × Str) :=
  match splitCRLF s with
  | none => none
  | some sl =>
    match parseHeaderLinesAux (sl.2.length + 1) sl.2 with
    | none => none
    | some hr =>
      match List.lookup ("Content-Length".data) hr.1 with
      | none => none
      | some v =>
        match parseNatChars v with
        | none => none
        | some n => if n ≤ hr.2.length then some (n, hr.2.take n) else none

/-- Unconditional header-line rendering (proof helper): what the header
block of a serialized response looks like as a list of pairs. -/
def renderLines (hs : List (Str × Str)) : Str :=
  (hs.map fun kv => kv.1 ++ ": ".data ++ kv.2 ++ "\r\n".data).flatten

/-! ## Helper lemmas -/

theorem splitCRLF_skip {l : Str} (rest : Str) (h : '\r' ∉ l) :
    splitCRLF (l ++ rest) = (splitCRLF rest).map fun p => (l ++ p.1, p.2) := by
  induction l with
  | nil =>
    cases hr : splitCRLF rest <;> simp [hr]
  | cons c l ih =>
    simp only [List.mem_cons, not_or] at h
    have hc : ¬ (c = '\r' ∧ (l ++ rest).head? = some '\n') := by
      intro hx
      exact h.1 (hx.1.symm)
    rw [List.cons_append]
    simp only [splitCRLF]
    rw [if_neg hc, ih h.2]
    cases hr : splitCRLF rest <;> simp [hr]

theorem splitCRLF_crlf (rest : Str) : splitCRLF ('\r' :: '\n' :: rest) = some ([], rest) := by
  simp [splitCRLF]

theorem splitCRLF_emit {l : Str} (rest : Str) (h : '\r' ∉ l) :
    splitCRLF (l ++ '\r' :: '\n' :: rest) = some (l, rest) := by
  rw [splitCRLF_skip ('\r' :: '\n' :: rest) h, splitCRLF_crlf]
  simp

theorem data_colonSp : ": ".data = [':', ' '] := rfl

theorem splitOnce_colon {k : Str} (v : Str) (h : ':' ∉ k) :
    splitOnce (": ".data) (k ++ ": ".data ++ v) = some (k, v) := by
  induction k with
  | nil =>
    rw [data_colonSp]
    simp [splitOnce, List.isPrefixOf]
  | cons c k ih =>
    simp only [List.mem_cons, not_or] at h
    have ih' := ih h.2
    have hb : (':' == c) = false := by
      simp only [beq_eq_false_iff_ne, ne_eq]
      exact h.1
    have hc : ([':', ' ']).isPrefixOf (c :: (k ++ [':', ' '] ++ v)) = false := by
      simp [List.isPrefixOf, hb]
    rw [data_colonSp] at ih' ⊢
    rw [List.cons_append]
    simp only [splitOnce, List.append_eq]
    rw [hc]
    simp only [Bool.false_eq_true, if_false, ih']
    simp

theorem lookup_append_of_ne {A B : List (Str × Str)} {key : Str}
    (h : ∀ p ∈ A, ¬ p.1 = key) :
    List.lookup key (A ++ B) = List.lookup key B := by
  induction A with
  | nil => simp
  | cons p A ih =>
    have hp : (key == p.1) = false := by
      simp
      intro hx
      exact h p (List.mem_cons_self p A) hx.symm
    simp only [List.cons_append, List.lookup, hp]
    exact ih fun q hq => h q (List.mem_cons_of_mem p hq)

theorem lookup_filter_ne {l : List (Str × Str)} {key k : Str} (h : ¬ key = k) :
    List.lookup key (l.filter fun kv => kv.1 != k) = List.lookup key l := by
  induction l with
  | nil => simp
  | cons p l ih =>
    by_cases hp : p.1 = k
    · have hf : (p.1 != k) = false := by simp [hp]
      have hk : (key == p.1) = false := by
        simp
        intro hx
        exact h (hx.trans hp)
      simp only [List.filter_cons, hf, Bool.false_eq_true, if_false, List.lookup, hk, ih]
    · have hf : (p.1 != k) = true := by simp [hp]
      simp only [List.filter_cons, hf, if_true, List.lookup, ih]

theorem renderHeaderSec_eq (hs : List (Str × Str)) :
    renderHeaderSec hs = renderLines (hs.filter fun kv => kv.1 != "Content-Length".data) := by
  induction hs with
  | nil => simp [renderHeaderSec, renderLines]
  | cons p hs ih =>
    by_cases hp : p.1 = ("Content-Length".data)
    · have hf : (p.1 != "Content-Length".data) = false := by simp [hp]
      simp only [renderHeaderSec, renderLines, List.map_cons, List.flatten_cons, if_pos hp,
        List.filter_cons, hf, Bool.false_eq_true, if_false, List.nil_append] at ih ⊢
      exact ih
    · have hf : (p.1 != "Content-Length".data) = true := by simp [hp]
      simp only [renderHeaderSec, renderLines, List.map_cons, List.flatten_cons, if_neg hp,
        List.filter_cons, hf, if_true] at ih ⊢
      rw [ih]

theorem renderLines_append (A B : List (Str × Str)) :
    renderLines (A ++ B) = renderLines A ++ renderLines B := by
  simp [renderLines]

theorem toDecimalAux_eq : ∀ (fuel n : Nat) (acc : Str), 1 ≤ n → n < 10 ^ fuel →
    toDecimalAux fuel n acc =
      ((Nat.digits 10 n).map (fun d => Char.ofNat (48 + d))).reverse ++ acc := by
  intro fuel
  induction fuel with
  | zero =>
    intro n acc h1 h2
    simp at h2
    omega
  | succ fuel ih =>
    intro n acc h1 h2
    by_cases hn10 : n < 10
    · rw [Nat.digits_of_lt 10 n (by omega) hn10]
      simp [toDecimalAux, hn10]
    · have hd : 1 ≤ n / 10 := (Nat.one_le_div_iff (by norm_num)).mpr (by omega)
      have hb : n / 10 < 10 ^ fuel := by
        rw [Nat.div_lt_iff_lt_mul (by norm_num)]
        calc n < 10 ^ (fuel + 1) := h2
          _ = 10 ^ fuel * 10 := by rw [pow_succ]
      rw [Nat.digits_def' (by norm_num : (1:Nat) < 10) (by omega : 0 < n)]
      simp only [toDecimalAux, if_neg hn10]
      rw [ih (n / 10) (Char.ofNat (48 + n % 10) :: acc) hd hb]
      simp

theorem natToChars_eq {n : Nat} (hn : n ≠ 0) :
    natToChars n = ((Nat.digits 10 n).map (fun d => Char.ofNat (48 + d))).reverse := by
  unfold natToChars
  rw [toDecimalAux_eq (n + 1) n [] (Nat.one_le_iff_ne_zero.mpr hn)
    (lt_of_lt_of_le (Nat.lt_pow_self (by norm_num) n)
      (Nat.pow_le_pow_right (by norm_num) (Nat.le_succ n)))]
  simp

theorem natToChars_isDigit {n : Nat} : ∀ c ∈ natToChars n, c.isDigit = true := by
  by_cases hn : n = 0
  · subst hn
    decide
  · rw [natToChars_eq hn]
    intro c hc
    simp only [List.mem_reverse, List.mem_map] at hc
    obtain ⟨d, hd, rfl⟩ := hc
    have hdlt : d < 10 := Nat.digits_lt_base (by norm_num) hd
    interval_cases d <;> decide

theorem natToChars_noCR {n : Nat} : '\r' ∉ natToChars n := by
  intro h
  have := natToChars_isDigit _ h
  simp [Char.isDigit] at this

theorem ofDigitsLE_eq (l : List Nat) : ofDigitsLE l = Nat.ofDigits 10 l := by
  induction l with
  | nil => simp [ofDigitsLE]
  | cons d ds ih => simp [ofDigitsLE, Nat.ofDigits_cons, ih]

theorem parseNat_natToChars (n : Nat) : parseNatChars (natToChars n) = some n := by
  by_cases hn : n = 0
  · subst hn
    decide
  · have hne : natToChars n ≠ [] := by
      rw [natToChars_eq hn]
      simp [Nat.digits_ne_nil_iff_ne_zero.mpr hn]
    have hall : (natToChars n).all Char.isDigit = true := by
      rw [List.all_eq_true]
      exact fun c hc => natToChars_isDigit c hc
    unfold parseNatChars
    rw [if_pos ⟨hne, hall⟩]
    rw [natToChars_eq hn]
    rw [List.map_reverse, List.reverse_reverse, List.map_map]
    have hmap : (Nat.digits 10 n).map (digitVal ∘ fun d => Char.ofNat (48 + d)) =
        (Nat.digits 10 n).map id := by
      apply List.map_congr_left
      intro d hd
      have hdlt : d < 10 := Nat.digits_lt_base (by norm_num) hd
      simp only [Function.comp_apply, id_eq]
      interval_cases d <;> decide
    rw [hmap, List.map_id, ofDigitsLE_eq, Nat.ofDigits_digits]

theorem replaceFuel_of_not_infix {pat rep : Str} :
    ∀ (fuel : Nat) (s : Str), ¬ pat <:+: s → replaceFuel pat rep fuel s = s := by
  intro fuel
  induction fuel with
  | zero =>
    intro s _
    rfl
  | succ fuel ih =>
    intro s h
    match s with
    | [] => rfl
    | c :: cs =>
      have hp : pat.isPrefixOf (c :: cs) = false :=
        Bool.eq_false_iff.mpr fun hb => h (List.isPrefixOf_iff_prefix.mp hb).isInfix
      simp only [replaceFuel]
      rw [hp]
      simp only [Bool.false_eq_true, if_false]
      rw [ih cs fun hi => h (List.infix_cons hi)]

theorem rustReplace_strip {pat s : Str} (rep : Str) (hpat : pat ≠ []) (h : ¬ pat <:+: s) :
    rustReplace pat rep (pat ++ s) = rep ++ s := by
  obtain ⟨p0, pt, rfl⟩ : ∃ p0 pt, pat = p0 :: pt := by
    cases pat with
    | nil => exact absurd rfl hpat
    | cons a b => exact ⟨a, b, rfl⟩
  unfold rustReplace
  rw [List.cons_append]
  simp only [List.length_cons, replaceFuel]
  have hpre : (p0 :: pt).isPrefixOf (p0 :: (pt ++ s)) = true := by
    rw [List.isPrefixOf_iff_prefix, ← List.cons_append]
    exact List.prefix_append _ _
  rw [hpre]
  simp only [if_true]
  have hdrop : List.drop (pt.length + 1) (p0 :: (pt ++ s)) = s := by
    rw [List.drop_succ_cons]
    exact List.drop_left _ _
  rw [hdrop, replaceFuel_of_not_infix _ s h]

theorem data_crlf : "\r\n".data = ['\r', '\n'] := rfl

theorem parseHeaderLinesAux_block :
    ∀ (hs : List (Str × Str)) (tail : Str) (fuel : Nat),
      (renderLines hs ++ '\r' :: '\n' :: tail).length < fuel →
      (∀ kv ∈ hs, ':' ∉ kv.1 ∧ '\r' ∉ kv.1 ∧ '\r' ∉ kv.2) →
      parseHeaderLinesAux fuel (renderLines hs ++ '\r' :: '\n' :: tail) = some (hs, tail) := by
  intro hs
  induction hs with
  | nil =>
    intro tail fuel hlen _
    cases fuel with
    | zero => omega
    | succ f =>
      have hnil : renderLines [] = ([] : Str) := by simp [renderLines]
      rw [hnil, List.nil_append]
      simp only [parseHeaderLinesAux, splitCRLF_crlf]
      simp
  | cons kv hs ih =>
    intro tail fuel hlen hgood
    obtain ⟨k, v⟩ := kv
    have hk : ':' ∉ k := (hgood (k, v) (List.mem_cons_self _ _)).1
    have hkr : '\r' ∉ k := (hgood (k, v) (List.mem_cons_self _ _)).2.1
    have hvr : '\r' ∉ v := (hgood (k, v) (List.mem_cons_self _ _)).2.2
    cases fuel with
    | zero => omega
    | succ f =>
      have hin : renderLines ((k, v) :: hs) ++ '\r' :: '\n' :: tail
          = (k ++ ": ".data ++ v) ++ '\r' :: '\n' :: (renderLines hs ++ '\r' :: '\n' :: tail) := by
        simp [renderLines, data_crlf, List.append_assoc]
      have hline : '\r' ∉ k ++ ": ".data ++ v := by
        intro hmem
        rcases List.mem_append.mp hmem with h1 | h1
        · rcases List.mem_append.mp h1 with h2 | h2
          · exact hkr h2
          · rw [data_colonSp] at h2
            exact absurd h2 (by decide)
        · exact hvr h1
      have hne : ¬ (k ++ ": ".data ++ v = []) := by
        rw [data_colonSp]
        simp
      have hlen2 : (renderLines hs ++ '\r' :: '\n' :: tail).length < f := by
        rw [hin] at hlen
        simp only [List.length_append, List.length_cons] at hlen ⊢
        omega
      rw [hin]
      simp only [parseHeaderLinesAux]
      rw [splitCRLF_emit _ hline]
      simp only [if_neg hne]
      rw [splitOnce_colon v hk]
      rw [ih tail f hlen2 fun q hq => hgood q (List.mem_cons_of_mem _ hq)]
      simp

theorem fromReader_body_shape {input : Str} {r : HttpRequest} (h : fromReader input = .ok r) :
    (r.method = .GET ∧ r.body = none) ∨
    (r.method = .POST ∧ ∃ bs, r.body = some bs ∧
      (List.lookup ("Content-Length".data) r.headers = none → bs = [])) := by
  unfold fromReader at h
  dsimp only at h
  split at h
  · exact absurd h (by simp)
  case _ m rest0 hw =>
    split at h
    · exact absurd h (by simp)
    case _ method hm =>
      split at h
      · exact absurd h (by simp)
      case _ p rest1 =>
        split at h
        · exact absurd h (by simp)
        case _ v rest2 =>
          split at h
          · exact absurd h (by simp)
          · split at h
            · exact absurd h (by simp)
            case _ ver hver =>
              split at h
              · exact absurd h (by simp)
              case _ hr hhr =>
                split at h
                · exact absurd h (by simp)
                case _ body hbody =>
                  have hrr : r = ⟨method, p, ver, hr.1, body⟩ := by
                    cases h
                    rfl
                  subst hrr
                  cases method with
                  | GET =>
                    left
                    refine ⟨rfl, ?_⟩
                    simp only [computeBody] at hbody
                    cases hbody
                    rfl
                  | POST =>
                    right
                    refine ⟨rfl, ?_⟩
                    simp only [computeBody] at hbody
                    split at hbody
                    case _ cl hcl =>
                      split at hbody
                      · exact absurd hbody (by simp)
                      case _ n hn =>
                        split at hbody
                        · refine ⟨hr.2.take n, ?_, ?_⟩
                          · cases hbody
                            rfl
                          · intro hnone
                            rw [hcl] at hnone
                            exact absurd hnone (by simp)
                        · exact absurd hbody (by simp)
                    case _ hcl =>
                      refine ⟨[], ?_, fun _ => rfl⟩
                      cases hbody
                      rfl
                  | PUT => exact absurd hbody (by simp [computeBody])
                  | PATCH => exact absurd hbody (by simp [computeBody])
                  | DELETE => exact absurd hbody (by simp [computeBody])

/-! ## Claim theorems -/

/-- C1: the claim says a start line with fewer than 3 whitespace-separated
tokens fails with a `MalformedStartLine` error rather than crashing.  The
code has no such error: `req_parts[1]` / `req_parts[2]` are indexed
without a length check, so a one-token start line ("GET") and a two-token
start line ("GET /") both panic with an out-of-range index — modelled by
the `panicIndexOutOfRange` outcome — instead of returning an error. -/
theorem C1_short_start_line_panics :
    fromReader ("GET\r\n".data) = .error .panicIndexOutOfRange ∧
    fromReader ("GET /\r\n".data) = .error .panicIndexOutOfRange := by
  exact ⟨rfl, rfl⟩

/-- C4: the claim says PUT/PATCH/DELETE requests fail with a deliberate
`NotImplemented` error result.  The code instead reaches the `todo` macro
(src/http.rs line 66), which panics — modelled by the `panicTodo`
outcome, a crash rather than a deliberate error return. -/
theorem C4_unimplemented_methods_panic :
    fromReader ("DELETE / HTTP/1.1\r\n\r\n".data) = .error .panicTodo ∧
    fromReader ("PUT / HTTP/1.1\r\n\r\n".data) = .error .panicTodo ∧
    fromReader ("PATCH / HTTP/1.1\r\n\r\n".data) = .error .panicTodo := by
  exact ⟨rfl, rfl, rfl⟩

/-- C2 counterexample: the claim says only the leading "/echo/" prefix is
removed and later occurrences of "/echo/" in the suffix are kept.  The
code uses `str::replace`, which removes every occurrence: for the path
"/echo/a/echo/b" the body is "ab", not "a/echo/b". -/
theorem C2_counterexample :
    (echo_route ("/echo/a/echo/b".data)).body = some ("ab".data) ∧
    (echo_route ("/echo/a/echo/b".data)).body ≠ some ("a/echo/b".data) := by
  exact ⟨rfl, by decide⟩

/-- C2 (amended): for every path "/echo/" ++ suffix whose suffix contains
no further occurrence of "/echo/", the echo handler's response body is
exactly the suffix, verbatim (no URL-decoding, no other alteration);
suffixes containing "/echo/" have those occurrences removed as well. -/
theorem C2_echo_verbatim (s : Str) (h : ¬ "/echo/".data <:+: s) :
    (echo_route ("/echo/".data ++ s)).body = some s := by
  simp only [echo_route, HttpResponse.set_body]
  rw [rustReplace_strip [] (by decide) h]
  rfl

/-- C2 witness: concrete instance of the amended claim at suffix "abc123". -/
theorem C2_witness :
    ¬ "/echo/".data <:+: "abc123".data ∧
    (echo_route ("/echo/".data ++ "abc123".data)).body = some ("abc123".data) :=
  ⟨by decide, C2_echo_verbatim ("abc123".data) (by decide)⟩

/-- C3 counterexample: the claim says a POST without `Content-Length` has
an absent body (`None`).  The code initialises the body buffer to an
empty `Vec` and wraps it in `Some` unconditionally for POST, so the
parsed body is `Some []`, present and empty, not absent. -/
theorem C3_counterexample :
    fromReader ("POST / HTTP/1.1\r\n\r\n".data) =
      .ok ⟨.POST, "/".data, "1.1".data, [], some []⟩ ∧
    some ([] : Str) ≠ none := by
  exact ⟨rfl, by simp⟩

/-- C3 (amended): for every successfully parsed request, the body is
absent exactly when the method is GET; for POST the body is always
present, and when no `Content-Length` header was declared it is the
present-but-empty `Some []` (zero bytes), not an absent body. -/
theorem C3_body_presence (input : Str) (r : HttpRequest) (h : fromReader input = .ok r) :
    (r.body = none ↔ r.method = .GET) ∧
    (r.method = .POST → List.lookup ("Content-Length".data) r.headers = none →
      r.body = some []) := by
  rcases fromReader_body_shape h with ⟨hg, hb⟩ | ⟨hp, bs, hbs, himp⟩
  · exact ⟨⟨fun _ => hg, fun _ => hb⟩, fun hpost _ => absurd (hg.symm.trans hpost) (by simp)⟩
  · constructor
    · constructor
      · intro hn
        rw [hbs] at hn
        exact absurd hn (by simp)
      · intro hget
        exact absurd (hp.symm.trans hget) (by simp)
    · intro _ hnone
      rw [hbs, himp hnone]

/-- C3 witness: the amended claim instantiated at the concrete request
"POST / HTTP/1.1" with no headers. -/
theorem C3_witness :
    ((⟨.POST, "/".data, "1.1".data, [], some []⟩ : HttpRequest).body = none ↔
      (⟨.POST, "/".data, "1.1".data, [], some []⟩ : HttpRequest).method = .GET) ∧
    ((⟨.POST, "/".data, "1.1".data, [], some []⟩ : HttpRequest).method = .POST →
      List.lookup ("Content-Length".data)
        ((⟨.POST, "/".data, "1.1".data, [], some []⟩ : HttpRequest)).headers = none →
      ((⟨.POST, "/".data, "1.1".data, [], some []⟩ : HttpRequest)).body = some []) :=
  C3_body_presence ("POST / HTTP/1.1\r\n\r\n".data) _ rfl

/-- C5: whenever a Content-Encoding header is set and a body is present,
the serialized output ends with the encoder's output for the body,
framed by a Content-Length header that declares the encoder output's
length (not the raw body length).  Stated for every encoder `g`, hence
in particular for flate2's gzip. -/
theorem C5_encoded_framing (g : Str → Str) (r : HttpResponse) (b enc : Str)
    (hb : r.body = some b)
    (hce : List.lookup ("Content-Encoding".data) r.headers = some enc) :
    r.write_to_buffer g = statusLine r ++ renderHeaderSec r.headers ++
      (if List.lookup ("Content-Type".data) r.headers = none
        then "Content-Type: text/plain\r\n".data else []) ++
      ("Content-Length: ".data ++ natToChars (g b).length ++ "\r\n\r\n".data ++ g b) := by
  simp [HttpResponse.write_to_buffer, hb, hce, List.append_assoc]

/-- C5 witness: a concrete response with Content-Encoding set, body "abc",
and an encoder returning "XYZ" (length 3). -/
theorem C5_witness :
    (HttpResponse.mk 200 ("OK".data) [("Content-Encoding".data, "gzip".data)]
        (some ("abc".data))).write_to_buffer (fun _ => "XYZ".data) =
      statusLine (HttpResponse.mk 200 ("OK".data)
          [("Content-Encoding".data, "gzip".data)] (some ("abc".data))) ++
        renderHeaderSec [("Content-Encoding".data, "gzip".data)] ++
        (if List.lookup ("Content-Type".data)
            [(("Content-Encoding".data : Str), ("gzip".data : Str))] = none
          then "Content-Type: text/plain\r\n".data else []) ++
        ("Content-Length: ".data ++ natToChars ("XYZ".data : Str).length ++
          "\r\n\r\n".data ++ "XYZ".data) :=
  C5_encoded_framing (fun _ => "XYZ".data)
    (HttpResponse.mk 200 ("OK".data) [("Content-Encoding".data, "gzip".data)]
      (some ("abc".data)))
    ("abc".data) ("gzip".data) rfl rfl

/-- C6: Content-Length is always computed by the serializer — deleting
every stored header literally named "Content-Length" does not change the
serialized bytes at all — and a response with no body emits exactly
"Content-Length: 0" followed directly by the blank line. -/
theorem C6_content_length_owned_by_serializer (g : Str → Str) (r : HttpResponse) :
    HttpResponse.write_to_buffer
        { r with headers := r.headers.filter fun kv => kv.1 != "Content-Length".data } g =
      r.write_to_buffer g ∧
    (r.body = none →
      r.write_to_buffer g =
        statusLine r ++ renderHeaderSec r.headers ++ "Content-Length: 0\r\n\r\n".data) := by
  have h1 : renderHeaderSec (r.headers.filter fun kv => kv.1 != "Content-Length".data) =
      renderHeaderSec r.headers := by
    rw [renderHeaderSec_eq, renderHeaderSec_eq, List.filter_filter]
    have : (fun kv : Str × Str =>
        (kv.1 != "Content-Length".data) && (kv.1 != "Content-Length".data)) =
        fun kv : Str × Str => kv.1 != "Content-Length".data := by
      funext kv
      exact Bool.and_self _
    rw [this]
  have h2 : List.lookup ("Content-Type".data)
      (r.headers.filter fun kv => kv.1 != "Content-Length".data) =
      List.lookup ("Content-Type".data) r.headers :=
    lookup_filter_ne (by decide)
  have h3 : List.lookup ("Content-Encoding".data)
      (r.headers.filter fun kv => kv.1 != "Content-Length".data) =
      List.lookup ("Content-Encoding".data) r.headers :=
    lookup_filter_ne (by decide)
  constructor
  · cases hb : r.body with
    | none =>
      simp only [HttpResponse.write_to_buffer, statusLine, hb, h1, h2, h3]
    | some b =>
      simp only [HttpResponse.write_to_buffer, statusLine, hb, h1, h2, h3]
  · intro hb
    simp [HttpResponse.write_to_buffer, hb]

/-- C6 witness: the serialization invariance and the no-body framing at a
concrete response (the default response, which has no body). -/
theorem C6_witness :
    HttpResponse.write_to_buffer
        { HttpResponse.new with
          headers := HttpResponse.new.headers.filter
            fun kv => kv.1 != "Content-Length".data } id =
      HttpResponse.new.write_to_buffer id ∧
    HttpResponse.new.write_to_buffer id =
      statusLine HttpResponse.new ++ renderHeaderSec HttpResponse.new.headers ++
        "Content-Length: 0\r\n\r\n".data :=
  ⟨(C6_content_length_owned_by_serializer id HttpResponse.new).1,
    (C6_content_length_owned_by_serializer id HttpResponse.new).2 rfl⟩

/-- C8 counterexample: with served directory "/srv" and file name
"/etc/passwd" (a `/files/` path whose remainder is absolute),
`PathBuf::join` replaces the base, so the handler reads "/etc/passwd"
alone.  Under a filesystem where `<served-directory>/<name>` (under
either slash reading) is missing but "/etc/passwd" exists, the claim as
frozen predicts a 404, yet the response is 200 with that file's bytes. -/
theorem C8_counterexample :
    (fun p : Str => if p = "/etc/passwd".data then some ("root".data) else none)
        ("/srv//etc/passwd".data) = none ∧
    (fun p : Str => if p = "/etc/passwd".data then some ("root".data) else none)
        ("/srv/etc/passwd".data) = none ∧
    file_route
        (fun p : Str => if p = "/etc/passwd".data then some ("root".data) else none)
        ("/srv".data) ("/etc/passwd".data) =
      ⟨200, "OK".data,
        [("Content-Type".data, "application/octet-stream".data)], some ("root".data)⟩ := by
  exact ⟨rfl, rfl, rfl⟩

/-- C8 (amended): the GET `/files/` route reads the path
`PathBuf::join(<served-directory>, <name>)` — `<served-directory>/<name>`
when `<name>` is relative, but `<name>` itself when it begins with '/'
(join replaces the base for absolute paths); any failed read of that
path yields the 404 response with no body (and no headers), and a
successful read yields 200 with
`Content-Type: application/octet-stream` and the file bytes as body. -/
theorem C8_files_get (fs : Str → Option Str) (dir name : Str) :
    (name.head? = some '/' → pathJoin dir name = name) ∧
    (dir ≠ [] → dir.getLast? ≠ some '/' → name.head? ≠ some '/' →
      pathJoin dir name = dir ++ '/' :: name) ∧
    (fs (pathJoin dir name) = none →
      file_route fs dir name = ⟨404, "Not Found".data, [], none⟩) ∧
    (∀ d, fs (pathJoin dir name) = some d →
      file_route fs dir name =
        ⟨200, "OK".data,
          [("Content-Type".data, "application/octet-stream".data)], some d⟩) := by
  refine ⟨?_, ?_, ?_, ?_⟩
  · intro habs
    simp [pathJoin, habs]
  · intro h1 h2 h3
    simp [pathJoin, h1, h2, h3]
  · intro h
    simp [file_route, HttpResponse.set_file_content, h, HttpResponse.set_status_code,
      HttpResponse.new, statusTextOf]
  · intro d h
    simp [file_route, HttpResponse.set_file_content, h, HttpResponse.set_body,
      HttpResponse.set_content_type, HttpResponse.set_header, insertH,
      HttpResponse.new, ContentType.toStr]

/-- C8 witness: the join characterizations and both read branches at
concrete directories, names and filesystems. -/
theorem C8_witness :
    pathJoin ("/srv".data) ("/etc/passwd".data) = "/etc/passwd".data ∧
    pathJoin ("/tmp".data) ("f.txt".data) = "/tmp".data ++ '/' :: "f.txt".data ∧
    file_route (fun _ => none) ("/tmp".data) ("missing.txt".data) =
      ⟨404, "Not Found".data, [], none⟩ ∧
    file_route (fun _ => some ("data!".data)) ("/tmp".data) ("f.txt".data) =
      ⟨200, "OK".data,
        [("Content-Type".data, "application/octet-stream".data)], some ("data!".data)⟩ :=
  ⟨(C8_files_get (fun _ => none) ("/srv".data) ("/etc/passwd".data)).1 rfl,
    (C8_files_get (fun _ => none) ("/tmp".data) ("f.txt".data)).2.1
      (by decide) (by decide) (by decide),
    (C8_files_get (fun _ => none) ("/tmp".data) ("missing.txt".data)).2.2.1 rfl,
    (C8_files_get (fun _ => some ("data!".data)) ("/tmp".data) ("f.txt".data)).2.2.2
      ("data!".data) rfl⟩

/-- C9 counterexample: uploading to `/files//etc/passwd` with served
directory "/srv": the write action targets "/etc/passwd" itself — the
absolute name replaces the base in `PathBuf::join` — and not
`<served-directory>/<name>` under either slash reading, contradicting the
frozen claim's "creates the file <served-directory>/<name>". -/
theorem C9_counterexample :
    (handleFilesPost ("/srv".data) ("/etc/passwd".data) (some ("x".data))).2 =
      some ("/etc/passwd".data, "x".data) ∧
    some (("/etc/passwd".data : Str), ("x".data : Str)) ≠
      some ("/srv//etc/passwd".data, "x".data) ∧
    some (("/etc/passwd".data : Str), ("x".data : Str)) ≠
      some ("/srv/etc/passwd".data, "x".data) := by
  exact ⟨rfl, by decide, by decide⟩

/-- C9 (amended): every POST request that reaches the `/files/` handler
carries a (possibly empty) body, so the handler always creates/truncates
the file at `PathBuf::join(<served-directory>, <name>)` —
`<served-directory>/<name>` for relative `<name>`, `<name>` itself when
it begins with '/' — writes exactly the body bytes to it, and answers
201 Created with no body; a POST that declared no `Content-Length`
writes zero bytes (the file is still created). -/
theorem C9_files_post (input : Str) (r : HttpRequest) (dir name : Str)
    (h : fromReader input = .ok r) (hm : r.method = .POST) :
    (name.head? = some '/' → pathJoin dir name = name) ∧
    (dir ≠ [] → dir.getLast? ≠ some '/' → name.head? ≠ some '/' →
      pathJoin dir name = dir ++ '/' :: name) ∧
    ∃ bs, r.body = some bs ∧
      handleFilesPost dir name r.body =
        (⟨201, "Created".data, [], none⟩, some (pathJoin dir name, bs)) ∧
      (List.lookup ("Content-Length".data) r.headers = none → bs = []) := by
  refine ⟨?_, ?_, ?_⟩
  · intro habs
    simp [pathJoin, habs]
  · intro h1 h2 h3
    simp [pathJoin, h1, h2, h3]
  · rcases fromReader_body_shape h with ⟨hg, _⟩ | ⟨_, bs, hbs, himp⟩
    · exact absurd (hg.symm.trans hm) (by simp)
    · refine ⟨bs, hbs, ?_, himp⟩
      rw [hbs]
      simp [handleFilesPost, HttpResponse.set_status_code, HttpResponse.new, statusTextOf]

/-- C9 witness: the claim instantiated at a concrete parsed POST upload
of the two bytes "hi" to file "a" under directory "/tmp". -/
theorem C9_witness :
    ∃ bs,
      (⟨.POST, "/files/a".data, "1.1".data, [("Content-Length".data, "2".data)],
          some ("hi".data)⟩ : HttpRequest).body = some bs ∧
      handleFilesPost ("/tmp".data) ("a".data)
          ((⟨.POST, "/files/a".data, "1.1".data, [("Content-Length".data, "2".data)],
            some ("hi".data)⟩ : HttpRequest)).body =
        (⟨201, "Created".data, [], none⟩,
          some (pathJoin ("/tmp".data) ("a".data), bs)) ∧
      (List.lookup ("Content-Length".data)
          ((⟨.POST, "/files/a".data, "1.1".data, [("Content-Length".data, "2".data)],
            some ("hi".data)⟩ : HttpRequest)).headers = none → bs = []) :=
  (C9_files_post ("POST /files/a HTTP/1.1\r\nContent-Length: 2\r\n\r\nhi".data) _
    ("/tmp".data) ("a".data) rfl rfl).2.2

/-- C10 counterexample: the frozen claim predicts `Content-Length: 0` for
every response with a present zero-length body, but the reachable
response of `GET /echo/` with `Accept-Encoding: gzip` — its body is
`Some []` (the echo of the empty suffix) and the handler inserts
`Content-Encoding: gzip` — is serialized with a Content-Length equal to
the length of the encoder's output for the empty body.  flate2's gzip of
the empty input is 20 bytes (10-byte header, 2-byte empty deflate block,
8-byte trailer; every conforming gzip stream has at least 18 bytes),
represented here by a 20-byte encoder output: the serializer declares
length 20 and the bytes differ from the `Content-Length: 0` framing the
claim predicts. -/
theorem C10_counterexample :
    (echo_route ("/echo/".data)).body = some [] ∧
    HttpResponse.write_to_buffer
        { echo_route ("/echo/".data) with
          headers := insertH ("Content-Encoding".data) ("gzip".data)
            (echo_route ("/echo/".data)).headers }
        (fun _ => List.replicate 20 'G') =
      statusLine (echo_route ("/echo/".data)) ++
        renderHeaderSec [("Content-Encoding".data, "gzip".data)] ++
        "Content-Type: text/plain\r\n".data ++
        ("Content-Length: ".data ++ natToChars 20 ++ "\r\n\r\n".data ++
          List.replicate 20 'G') ∧
    HttpResponse.write_to_buffer
        { echo_route ("/echo/".data) with
          headers := insertH ("Content-Encoding".data) ("gzip".data)
            (echo_route ("/echo/".data)).headers }
        (fun _ => List.replicate 20 'G') ≠
      statusLine (echo_route ("/echo/".data)) ++
        renderHeaderSec [("Content-Encoding".data, "gzip".data)] ++
        "Content-Type: text/plain\r\n".data ++ "Content-Length: 0\r\n\r\n".data := by
  exact ⟨rfl, rfl, by decide⟩

/-- C10 (amended): the serializer distinguishes a present-but-empty body
from an absent body.  With body `Some []` it emits the default
`Content-Type: text/plain` header (when no Content-Type was set)
followed by `Content-Length: 0` when no Content-Encoding header is set,
or by a Content-Length equal to the encoder output's length for the
empty body when one is set (nonzero for gzip, whose stream format
mandates header and trailer bytes); with no body at all it emits
`Content-Length: 0` directly, with no default Content-Type header.  The
`/user-agent` route with an absent User-Agent header indeed builds the
`Some []` body. -/
theorem C10_empty_vs_absent_body (g : Str → Str) (r : HttpResponse)
    (hct : List.lookup ("Content-Type".data) r.headers = none) :
    (List.lookup ("Content-Encoding".data) r.headers = none →
      HttpResponse.write_to_buffer { r with body := some [] } g =
        statusLine r ++ renderHeaderSec r.headers ++
          "Content-Type: text/plain\r\n".data ++ "Content-Length: 0\r\n\r\n".data) ∧
    HttpResponse.write_to_buffer { r with body := none } g =
      statusLine r ++ renderHeaderSec r.headers ++ "Content-Length: 0\r\n\r\n".data ∧
    (∀ enc, List.lookup ("Content-Encoding".data) r.headers = some enc →
      HttpResponse.write_to_buffer { r with body := some [] } g =
        statusLine r ++ renderHeaderSec r.headers ++
          "Content-Type: text/plain\r\n".data ++
          ("Content-Length: ".data ++ natToChars (g []).length ++ "\r\n\r\n".data ++
            g [])) ∧
    (user_agent_route []).body = some [] := by
  refine ⟨?_, ?_, ?_, rfl⟩
  · intro hce
    simp [HttpResponse.write_to_buffer, statusLine, hct, hce, List.append_assoc]
    decide
  · simp [HttpResponse.write_to_buffer, statusLine]
  · intro enc hce
    simp [HttpResponse.write_to_buffer, statusLine, hct, hce, List.append_assoc]

/-- C10 witness: the no-encoding distinction at the default response (no
headers) and the encoding case at a response carrying
`Content-Encoding: gzip`. -/
theorem C10_witness :
    HttpResponse.write_to_buffer { HttpResponse.new with body := some [] } id =
      statusLine HttpResponse.new ++ renderHeaderSec HttpResponse.new.headers ++
        "Content-Type: text/plain\r\n".data ++ "Content-Length: 0\r\n\r\n".data ∧
    HttpResponse.write_to_buffer { HttpResponse.new with body := none } id =
      statusLine HttpResponse.new ++ renderHeaderSec HttpResponse.new.headers ++
        "Content-Length: 0\r\n\r\n".data ∧
    HttpResponse.write_to_buffer
        { (⟨200, "OK".data, [("Content-Encoding".data, "gzip".data)], none⟩ :
            HttpResponse) with body := some [] } id =
      statusLine (⟨200, "OK".data, [("Content-Encoding".data, "gzip".data)], none⟩ :
          HttpResponse) ++
        renderHeaderSec [("Content-Encoding".data, "gzip".data)] ++
        "Content-Type: text/plain\r\n".data ++
        ("Content-Length: ".data ++ natToChars (id ([] : Str)).length ++
          "\r\n\r\n".data ++ id ([] : Str)) ∧
    (user_agent_route []).body = some [] :=
  ⟨(C10_empty_vs_absent_body id HttpResponse.new rfl).1 rfl,
    (C10_empty_vs_absent_body id HttpResponse.new rfl).2.1,
    (C10_empty_vs_absent_body id
        (⟨200, "OK".data, [("Content-Encoding".data, "gzip".data)], none⟩ :
          HttpResponse) rfl).2.2.1 ("gzip".data) rfl,
    (C10_empty_vs_absent_body id HttpResponse.new rfl).2.2.2⟩

theorem parseFraming_of_shape (slbody : Str) (block : List (Str × Str)) (b : Str)
    (hsl : '\r' ∉ slbody)
    (hgood : ∀ kv ∈ block, ':' ∉ kv.1 ∧ '\r' ∉ kv.1 ∧ '\r' ∉ kv.2)
    (hcl : List.lookup ("Content-Length".data) block = some (natToChars b.length)) :
    parseFraming (slbody ++ '\r' :: '\n' :: (renderLines block ++ '\r' :: '\n' :: b)) =
      some (b.length, b) := by
  simp only [parseFraming]
  rw [splitCRLF_emit _ hsl]
  dsimp only
  rw [parseHeaderLinesAux_block block b ((renderLines block ++ '\r' :: '\n' :: b).length + 1)
    (Nat.lt_succ_self _) hgood]
  dsimp only
  rw [hcl]
  dsimp only
  rw [parseNat_natToChars]
  simp [List.take_length]

/-- C7: serializing a response whose body is `b` with no Content-Encoding
header and re-parsing the produced framing yields a declared
Content-Length equal to `b`'s length and body bytes equal to `b`
exactly.  The sanity hypotheses only rule out header names/values or
status texts that smuggle CR or colon characters into the wire format
(which no handler of this repository produces). -/
theorem C7_roundtrip (g : Str → Str) (r : HttpResponse) (b : Str)
    (hb : r.body = some b)
    (hce : List.lookup ("Content-Encoding".data) r.headers = none)
    (hst : '\r' ∉ r.status_text)
    (hhs : ∀ kv ∈ r.headers, ':' ∉ kv.1 ∧ '\r' ∉ kv.1 ∧ '\r' ∉ kv.2) :
    parseFraming (r.write_to_buffer g) = some (b.length, b) := by
  have hslb : '\r' ∉ "HTTP/1.1 ".data ++ natToChars r.status_code ++ " ".data ++
      r.status_text := by
    intro hmem
    rcases List.mem_append.mp hmem with h1 | h1
    · rcases List.mem_append.mp h1 with h2 | h2
      · rcases List.mem_append.mp h2 with h3 | h3
        · exact absurd h3 (by decide)
        · exact natToChars_noCR h3
      · exact absurd h2 (by decide)
    · exact hst h1
  have hgoodF : ∀ kv ∈ (r.headers.filter fun kv => kv.1 != "Content-Length".data),
      ':' ∉ kv.1 ∧ '\r' ∉ kv.1 ∧ '\r' ∉ kv.2 :=
    fun kv hkv => hhs kv (List.mem_of_mem_filter hkv)
  have hneF : ∀ p ∈ (r.headers.filter fun kv => kv.1 != "Content-Length".data),
      ¬ p.1 = "Content-Length".data := by
    intro p hp
    have := (List.mem_filter.mp hp).2
    simpa using this
  cases hctE : List.lookup ("Content-Type".data) r.headers with
  | none =>
    have hform : r.write_to_buffer g =
        ("HTTP/1.1 ".data ++ natToChars r.status_code ++ " ".data ++ r.status_text) ++
          '\r' :: '\n' ::
          (renderLines ((r.headers.filter fun kv => kv.1 != "Content-Length".data) ++
              [("Content-Type".data, "text/plain".data),
               ("Content-Length".data, natToChars b.length)]) ++
            '\r' :: '\n' :: b) := by
      simp [HttpResponse.write_to_buffer, statusLine, hb, hce, hctE, renderHeaderSec_eq,
        renderLines, List.append_assoc]
    rw [hform]
    apply parseFraming_of_shape _ _ _ hslb
    · intro kv hkv
      rcases List.mem_append.mp hkv with h1 | h1
      · exact hgoodF kv h1
      · rcases List.mem_cons.mp h1 with h2 | h2
        · subst h2
          exact ⟨by decide, by decide, by decide⟩
        · rcases List.mem_cons.mp h2 with h3 | h3
          · subst h3
            exact ⟨by show ':' ∉ "Content-Length".data; decide,
              by show '\r' ∉ "Content-Length".data; decide, natToChars_noCR⟩
          · exact absurd h3 (List.not_mem_nil kv)
    · rw [lookup_append_of_ne hneF]
      simp [List.lookup]
  | some ct =>
    have hform : r.write_to_buffer g =
        ("HTTP/1.1 ".data ++ natToChars r.status_code ++ " ".data ++ r.status_text) ++
          '\r' :: '\n' ::
          (renderLines ((r.headers.filter fun kv => kv.1 != "Content-Length".data) ++
              [("Content-Length".data, natToChars b.length)]) ++
            '\r' :: '\n' :: b) := by
      simp [HttpResponse.write_to_buffer, statusLine, hb, hce, hctE, renderHeaderSec_eq,
        renderLines, List.append_assoc]
    rw [hform]
    apply parseFraming_of_shape _ _ _ hslb
    · intro kv hkv
      rcases List.mem_append.mp hkv with h1 | h1
      · exact hgoodF kv h1
      · rcases List.mem_cons.mp h1 with h2 | h2
        · subst h2
          exact ⟨by show ':' ∉ "Content-Length".data; decide,
            by show '\r' ∉ "Content-Length".data; decide, natToChars_noCR⟩
        · exact absurd h2 (List.not_mem_nil kv)
    · rw [lookup_append_of_ne hneF]
      simp [List.lookup]

/-- C7 witness: the round trip at a concrete response with body "hello". -/
theorem C7_witness :
    parseFraming ((HttpResponse.new.set_body ("hello".data)).write_to_buffer id) =
      some (5, "hello".data) :=
  C7_roundtrip id (HttpResponse.new.set_body ("hello".data)) ("hello".data) rfl rfl
    (by decide)
    (by
      intro kv hkv
      simp [HttpResponse.new, HttpResponse.set_body] at hkv)
